import Mathlib

/-!
Shallow embedding of the DrinkTrack server (server.js, prediction-game
revision) and verification of the specification claims about it.

Conventions of the embedding:
* JS timestamps (milliseconds since epoch) are modelled as `Int`;
  `Math.floor(x / 60000)` is `Int.fdiv x 60000`.
* JS numbers appearing as counts/estimates are modelled as `Int`
  (they are integers in every reachable state); the mean-absolute-error
  arithmetic of the awards engine is modelled in `ℚ`.
* A JSON request field that may be absent is an `Option`; the JS
  falsiness test `!s` on a string field is `strFalsy` (absent or empty).
* Each HTTP handler is a pure function `State -> request -> State × HResult`,
  the returned state being the store after the request (error paths return
  the input state unchanged, mirroring the early `return res.status(...)`).
* `generateId()` and `new Date()` are impure inputs of the handlers and are
  passed explicitly (`newId`, `now`).
* String helpers (`toLowerStr`, `trimStr`) model the JS `toLowerCase`/`trim`
  by direct recursion over the character list, which the kernel can evaluate.
-/

/-- Lowercase model of JS String.prototype.toLowerCase (ASCII-faithful). -/
def toLowerStr (s : String) : String := ⟨s.data.map Char.toLower⟩

/-- Trim model of JS String.prototype.trim: strip whitespace at both ends. -/
def trimStr (s : String) : String :=
  ⟨((s.data.dropWhile Char.isWhitespace).reverse.dropWhile Char.isWhitespace).reverse⟩

/-- JS falsiness of an optional string field: absent or empty. -/
def strFalsy : Option String → Bool
  | none => true
  | some s => s = ""

/-- JS `a || d` for an optional string field appearing with a default. -/
def orDefault : Option String → String → String
  | none, d => d
  | some s, d => if s = "" then d else s

/-- Replace the first list element satisfying `p` (models in-place mutation
of the object returned by Array.prototype.find). -/
def replaceFirst {α : Type} (p : α → Bool) (f : α → α) : List α → List α
  | [] => []
  | x :: xs => if p x then f x :: xs else x :: replaceFirst p f xs

/-- Drink catalog entry (server.js `state.drinks` element). -/
structure Drink where
  name : String
  emoji : String
  imageUrl : String
  color : String
deriving DecidableEq, Repr

/-- Consumption log entry; `occurredAt` models the JS field `at`. -/
structure Consumption where
  drinkName : String
  participantId : Option String
  occurredAt : Int
deriving DecidableEq, Repr

/-- Event marker (server.js `state.events` element); `occurredAt` models `at`. -/
structure EventMarker where
  label : String
  color : String
  occurredAt : Int
deriving DecidableEq, Repr

/-- Participant (server.js `state.participants` element). -/
structure Participant where
  id : String
  name : String
  avatar : String
  selfEstimate : Int
deriving DecidableEq, Repr

/-- Prediction (server.js `state.predictions` element). -/
structure Prediction where
  id : String
  predictorId : String
  targetId : String
  predictedDrinks : Int
deriving DecidableEq, Repr

/-- Settings singleton (server.js `state.eventSettings`). -/
structure EventSettings where
  passcodeHash : Option String
  predictionsLocked : Bool
deriving DecidableEq, Repr

/-- The whole in-memory store (server.js `state`). -/
structure St where
  drinks : List Drink
  consumptions : List Consumption
  events : List EventMarker
  participants : List Participant
  predictions : List Prediction
  eventSettings : EventSettings
deriving DecidableEq, Repr

/-- The seeded initial state of server.js. -/
def initialState : St :=
  { drinks :=
      [ ⟨"Beer", "🍺", "", "#F59E0B"⟩
      , ⟨"Wine", "🍷", "", "#DC2626"⟩
      , ⟨"Whisky", "🥃", "", "#D97706"⟩
      , ⟨"Cocktail", "🍸", "", "#EC4899"⟩
      , ⟨"Longdrink", "🍹", "", "#06B6D4"⟩
      , ⟨"Sparkling", "🥂", "", "#FBBF24"⟩ ]
    consumptions := []
    events := []
    participants := []
    predictions := []
    eventSettings := ⟨none, false⟩ }

/-- Result of a handler: HTTP status plus either a payload or an error text. -/
inductive HResult (α : Type) where
  | ok : Nat → α → HResult α
  | err : Nat → String → HResult α
deriving DecidableEq, Repr

/-- True when the handler did not reject the request. -/
def HResult.isOk {α : Type} : HResult α → Bool
  | .ok _ _ => true
  | .err _ _ => false

/-- Request body of POST /drinks. -/
structure DrinksBody where
  name : Option String
  emoji : Option String
  imageUrl : Option String
  color : Option String
deriving DecidableEq, Repr

/-- POST /drinks: create a drink; name uniqueness is checked case-insensitively. -/
def postDrinks (s : St) (b : DrinksBody) : St × HResult Drink :=
  if strFalsy b.name || (trimStr (b.name.getD "") = "") then
    (s, .err 400 "Drink name is required")
  else
    let name := b.name.getD ""
    if s.drinks.any (fun d => toLowerStr d.name = toLowerStr name) then
      (s, .err 409 "Drink with this name already exists")
    else
      let drink : Drink :=
        ⟨trimStr name, orDefault b.emoji "", orDefault b.imageUrl "", orDefault b.color "#8B5CF6"⟩
      ({ s with drinks := s.drinks ++ [drink] }, .ok 201 drink)

/-- Request body of POST /consume.  The handler destructures only `drinkName`;
the `participantId` field is carried here because clients may send it. -/
structure ConsumeBody where
  drinkName : Option String
  participantId : Option String
deriving DecidableEq, Repr

/-- POST /consume: record a consumption; the stored record has no
participantId because the handler only reads `drinkName` from the body. -/
def postConsume (s : St) (b : ConsumeBody) (now : Int) : St × HResult Consumption :=
  if strFalsy b.drinkName then
    (s, .err 400 "drinkName is required")
  else
    let dn := b.drinkName.getD ""
    match s.drinks.find? (fun d => d.name = dn) with
    | none => (s, .err 404 "Drink not found")
    | some _ =>
      let c : Consumption := ⟨dn, none, now⟩
      ({ s with consumptions := s.consumptions ++ [c] }, .ok 201 c)

/-- Request body of POST /api/consume-participant. -/
structure ConsumePartBody where
  drinkName : Option String
  participantId : Option String
deriving DecidableEq, Repr

/-- POST /api/consume-participant: record a consumption with a mandatory
participantId (400 when it is missing). -/
def postConsumeParticipant (s : St) (b : ConsumePartBody) (now : Int) :
    St × HResult Consumption :=
  if strFalsy b.drinkName then
    (s, .err 400 "drinkName is required")
  else if strFalsy b.participantId then
    (s, .err 400 "participantId is required")
  else
    let dn := b.drinkName.getD ""
    let pid := b.participantId.getD ""
    match s.drinks.find? (fun d => d.name = dn) with
    | none => (s, .err 404 "Drink not found")
    | some _ =>
      match s.participants.find? (fun p => p.id = pid) with
      | none => (s, .err 404 "Participant not found")
      | some _ =>
        let c : Consumption := ⟨dn, some pid, now⟩
        ({ s with consumptions := s.consumptions ++ [c] }, .ok 201 c)

/-- POST /api/passcode: hash the passcode and store it.  The hash function
(sha256 in the source) is an explicit parameter of the embedding.  The
handler stores unconditionally: it never checks whether a hash is already
set. -/
def postPasscode (hashFn : String → String) (s : St) (passcode : Option String) :
    St × HResult String :=
  if strFalsy passcode || (trimStr (passcode.getD "") = "") then
    (s, .err 400 "Passcode is required")
  else
    ({ s with eventSettings := { s.eventSettings with
        passcodeHash := some (hashFn (passcode.getD "")) } },
     .ok 200 "Passcode set successfully")

/-- Request body of POST /api/participants. -/
structure ParticipantsBody where
  name : Option String
  avatar : Option String
  selfEstimate : Option Int
deriving DecidableEq, Repr

/-- POST /api/participants: register a participant, or — when a participant
with the same case-insensitive name exists — update that participant in
place (upsert).  The upsert path performs no predictions-lock check. -/
def postParticipants (s : St) (b : ParticipantsBody) (newId : String) :
    St × HResult Participant :=
  if strFalsy b.name || (trimStr (b.name.getD "") = "") then
    (s, .err 400 "Name is required")
  else
    let nm := b.name.getD ""
    let sameName : Participant → Bool :=
      fun p => toLowerStr p.name = toLowerStr (trimStr nm)
    match s.participants.find? sameName with
    | some existing =>
      let updated : Participant :=
        { existing with
          avatar := orDefault b.avatar existing.avatar
          selfEstimate := b.selfEstimate.getD existing.selfEstimate }
      ({ s with participants := replaceFirst sameName (fun _ => updated) s.participants },
       .ok 200 updated)
    | none =>
      let participant : Participant :=
        ⟨newId, trimStr nm, orDefault b.avatar "",
          match b.selfEstimate with
          | some v => if v = 0 then 0 else v
          | none => 0⟩
      ({ s with participants := s.participants ++ [participant] },
       .ok 201 participant)

/-- PATCH /api/participants/:id: update a participant's selfEstimate; 404
when the id is unknown, 403 when predictions are locked. -/
def patchParticipants (s : St) (id : String) (selfEstimate : Option Int) :
    St × HResult Participant :=
  match s.participants.find? (fun p => p.id = id) with
  | none => (s, .err 404 "Participant not found")
  | some participant =>
    if s.eventSettings.predictionsLocked then
      (s, .err 403 "Predictions are locked")
    else
      let updated :=
        match selfEstimate with
        | some v => { participant with selfEstimate := v }
        | none => participant
      ({ s with participants :=
          replaceFirst (fun p => p.id = id) (fun _ => updated) s.participants },
       .ok 200 updated)

/-- Request body of POST /api/predictions. -/
structure PredictionsBody where
  predictorId : Option String
  targetId : Option String
  predictedDrinks : Option Int
deriving DecidableEq, Repr

/-- POST /api/predictions: validate presence of the three fields, reject
when predictions are locked, then upsert on the (predictorId, targetId)
key.  There is no check that predictorId differs from targetId, and no
check that either id names an existing participant. -/
def postPredictions (s : St) (b : PredictionsBody) (newId : String) :
    St × HResult Prediction :=
  if strFalsy b.predictorId || strFalsy b.targetId then
    (s, .err 400 "predictorId and targetId are required")
  else if b.predictedDrinks.isNone then
    (s, .err 400 "predictedDrinks is required")
  else if s.eventSettings.predictionsLocked then
    (s, .err 403 "Predictions are locked")
  else
    let pid := b.predictorId.getD ""
    let tid := b.targetId.getD ""
    let pd := b.predictedDrinks.getD 0
    let samePair : Prediction → Bool :=
      fun p => p.predictorId = pid && p.targetId = tid
    match s.predictions.find? samePair with
    | some existing =>
      let updated := { existing with predictedDrinks := pd }
      ({ s with predictions :=
          replaceFirst samePair (fun p => { p with predictedDrinks := pd }) s.predictions },
       .ok 200 updated)
    | none =>
      let prediction : Prediction := ⟨newId, pid, tid, pd⟩
      ({ s with predictions := s.predictions ++ [prediction] }, .ok 201 prediction)

/-- POST /api/event-settings/lock-predictions: set the lock to `!!locked`. -/
def postLockPredictions (s : St) (locked : Option Bool) : St × HResult Bool :=
  let v := locked.getD false
  ({ s with eventSettings := { s.eventSettings with predictionsLocked := v } },
   .ok 200 v)

/-- A state with one participant and predictions unlocked, used to exercise
the prediction endpoint. -/
def selfPredState : St := { initialState with participants := [⟨"a", "Alice", "", 0⟩] }

/-- C1: the claim says a prediction whose predictorId equals its targetId is
always rejected.  The handler has no such check: with the lock off, the
self-prediction (predictor "a", target "a") is accepted with status 201 and
appended to the store. -/
theorem c1_self_prediction_accepted :
    postPredictions selfPredState ⟨some "a", some "a", some 3⟩ "nid" =
      ({ selfPredState with predictions := [⟨"nid", "a", "a", 3⟩] },
        .ok 201 ⟨"nid", "a", "a", 3⟩) ∧
    selfPredState.eventSettings.predictionsLocked = false := by decide

/-- A state whose passcode hash is already set. -/
def passcodeSetState : St := { initialState with eventSettings := ⟨some "oldhash", false⟩ }

/-- C3: the claim says the passcode hash is write-once and a second set
attempt fails with AlreadySet.  The handler stores unconditionally: on a
state whose hash is already "oldhash", a second request succeeds with
status 200 and replaces the hash. -/
theorem c3_passcode_overwritten :
    postPasscode (fun _ => "newhash") passcodeSetState (some "secret") =
      ({ passcodeSetState with eventSettings := ⟨some "newhash", false⟩ },
        .ok 200 "Passcode set successfully") ∧
    ("newhash" : String) ≠ "oldhash" := by decide

/-- C8: the claim says recording a consumption accepts an optional
participantId that is stored when supplied.  POST /consume ignores the
supplied participantId (the stored record carries none), and the only
endpoint that stores one, POST /api/consume-participant, rejects requests
that omit it — so no endpoint treats participantId as stored-when-present
and optional. -/
theorem c8_consume_drops_participant :
    postConsume initialState ⟨some "Beer", some "p1"⟩ 1000 =
      ({ initialState with consumptions := [⟨"Beer", none, 1000⟩] },
        .ok 201 ⟨"Beer", none, 1000⟩) ∧
    postConsumeParticipant initialState ⟨some "Beer", none⟩ 1000 =
      (initialState, .err 400 "participantId is required") := by decide

/-- C10: on the seeded state (which contains the drink "Beer"), recording a
consumption of "beer" fails with 404 and leaves the state unchanged because
the lookup is case-sensitive, while creating a drink named "beer" fails
with 409 because creation checks names case-insensitively. -/
theorem c10_case_sensitivity :
    postConsume initialState ⟨some "beer", none⟩ 1000 =
      (initialState, .err 404 "Drink not found") ∧
    postDrinks initialState ⟨some "beer", none, none, none⟩ =
      (initialState, .err 409 "Drink with this name already exists") := by decide

/-- A locked state with one registered participant. -/
def lockedState : St :=
  { initialState with
    participants := [⟨"a", "Alice", "", 3⟩]
    eventSettings := ⟨none, true⟩ }

/-- C2 counterexample: with predictionsLocked true, registering a
participant whose name already exists (the upsert path of POST
/api/participants) succeeds with status 200 and overwrites the stored
selfEstimate from 3 to 7 — the lock does not protect this mutation. -/
theorem c2_locked_upsert_mutates :
    lockedState.eventSettings.predictionsLocked = true ∧
    postParticipants lockedState ⟨some "Alice", none, some 7⟩ "nid" =
      ({ lockedState with participants := [⟨"a", "Alice", "", 7⟩] },
        .ok 200 ⟨"a", "Alice", "", 7⟩) := by decide

/-- When all three fields are present and the lock is off, POST
/api/predictions always succeeds (create or overwrite). -/
theorem postPredictions_ok_of_unlocked (t : St) (b : PredictionsBody) (newId : String)
    (h1 : strFalsy b.predictorId = false) (h2 : strFalsy b.targetId = false)
    (hn3 : b.predictedDrinks.isNone = false)
    (hunlock : t.eventSettings.predictionsLocked = false) :
    (postPredictions t b newId).2.isOk = true := by
  simp only [postPredictions, h1, h2, hn3, hunlock, Bool.or_self, Bool.false_eq_true,
    if_false]
  cases hfind : t.predictions.find?
      (fun p => p.predictorId = b.predictorId.getD "" && p.targetId = b.targetId.getD "") with
  | none => simp [hfind, HResult.isOk]
  | some e => simp [hfind, HResult.isOk]

/-- C2 (amended): while predictionsLocked is true, POST /api/predictions and
PATCH /api/participants/:id (for an existing participant) fail with the 403
lock rejection and leave the state unchanged, and after toggling the lock
back off via the lock endpoint the same requests succeed. -/
theorem c2_lock_semantics (s : St) (b : PredictionsBody) (newId id : String)
    (est : Option Int) (p : Participant)
    (hlock : s.eventSettings.predictionsLocked = true)
    (h1 : strFalsy b.predictorId = false) (h2 : strFalsy b.targetId = false)
    (h3 : b.predictedDrinks.isSome = true)
    (hp : s.participants.find? (fun q => q.id = id) = some p) :
    postPredictions s b newId = (s, .err 403 "Predictions are locked") ∧
    patchParticipants s id est = (s, .err 403 "Predictions are locked") ∧
    (postPredictions (postLockPredictions s (some false)).1 b newId).2.isOk = true ∧
    (patchParticipants (postLockPredictions s (some false)).1 id est).2.isOk = true := by
  have hn3 : b.predictedDrinks.isNone = false := by
    cases hb : b.predictedDrinks with
    | none => rw [hb] at h3; simp at h3
    | some v => simp [hb]
  have hunlocked :
      (postLockPredictions s (some false)).1.eventSettings.predictionsLocked = false := by
    simp [postLockPredictions]
  have hps : (postLockPredictions s (some false)).1.participants = s.participants := by
    simp [postLockPredictions]
  refine ⟨?_, ?_, ?_, ?_⟩
  · simp only [postPredictions, h1, h2, hn3, hlock]
    simp
  · simp only [patchParticipants, hp, hlock]
    simp
  · exact postPredictions_ok_of_unlocked _ b newId h1 h2 hn3 hunlocked
  · simp [patchParticipants, hps, hp, hunlocked, HResult.isOk]

/-- C2 witness: the amended lock-semantics theorem instantiated on a
concrete locked state, prediction request and participant. -/
theorem c2_lock_semantics_witness :
    postPredictions lockedState ⟨some "a", some "b", some 2⟩ "nid" =
      (lockedState, .err 403 "Predictions are locked") ∧
    patchParticipants lockedState "a" (some 9) =
      (lockedState, .err 403 "Predictions are locked") ∧
    (postPredictions (postLockPredictions lockedState (some false)).1
      ⟨some "a", some "b", some 2⟩ "nid").2.isOk = true ∧
    (patchParticipants (postLockPredictions lockedState (some false)).1
      "a" (some 9)).2.isOk = true :=
  c2_lock_semantics lockedState ⟨some "a", some "b", some 2⟩ "nid" "a" (some 9)
    ⟨"a", "Alice", "", 3⟩ (by decide) (by decide) (by decide) (by decide) (by decide)

/-- Number of consumptions recorded for a participant id (helper
getParticipantDrinkCount of server.js). -/
def getParticipantDrinkCount (s : St) (participantId : String) : Nat :=
  (s.consumptions.filter (fun c => c.participantId = some participantId)).length

/-- Keys of a JS object built by assignment inside a forEach, in insertion
order: first occurrence of each element, duplicates dropped. -/
def keysInOrder (seen : List String) : List String → List String
  | [] => []
  | a :: l => if a ∈ seen then keysInOrder seen l else a :: keysInOrder (a :: seen) l

/-- The keys of predictionsMap: distinct predictor ids in first-occurrence
order. -/
def predictorKeys (s : St) : List String :=
  keysInOrder [] (s.predictions.map (·.predictorId))

/-- predictionsMap[pid][tid]: the predicted drinks of the last stored
prediction for the pair, mirroring that a later forEach assignment
overwrites an earlier one. -/
def predLookup (s : St) (pid tid : String) : Option Int :=
  ((s.predictions.filter
      (fun p => p.predictorId = pid && p.targetId = tid)).getLast?).map (·.predictedDrinks)

/-- The (totalError, count) accumulator of the per-predictor loop of
computeAwards.  The loop guard on actualDrinks[target.id] is always true
because target ranges over the participants the map was built from, and
count and coveredTargets are incremented together, so one counter stands
for both. -/
def predictorTotals (s : St) (pid : String) : ℚ × Nat :=
  s.participants.foldl
    (fun acc target =>
      match predLookup s pid target.id with
      | some v =>
        (acc.1 + |(v : ℚ) - (getParticipantDrinkCount s target.id : ℚ)|, acc.2 + 1)
      | none => acc)
    (0, 0)

/-- predictorMAE[pid], defined only when the predictor covered at least one
existing participant. -/
def predictorMAE (s : St) (pid : String) : Option ℚ :=
  let t := predictorTotals s pid
  if t.2 > 0 then some (t.1 / t.2) else none

/-- predictorCoverage[pid]: covered targets over the total number of
participants (the predictor included in the denominator). -/
def predictorCoverage (s : St) (pid : String) : Option ℚ :=
  let t := predictorTotals s pid
  if t.2 > 0 then some ((t.2 : ℚ) / (s.participants.length : ℚ)) else none

/-- Keys of the predictorMAE object, in insertion order. -/
def maePredictors (s : St) : List String :=
  (predictorKeys s).filter (fun pid => (predictorMAE s pid).isSome)

/-- The adaptive threshold: 0.5; if no predictor reaches it, 0.33; if still
none, 0.01. -/
def minCoverageThreshold (s : St) : ℚ :=
  if (maePredictors s).any (fun pid => (predictorCoverage s pid).getD 0 ≥ 1/2) then 1/2
  else if (maePredictors s).any (fun pid => (predictorCoverage s pid).getD 0 ≥ 33/100) then 33/100
  else 1/100

/-- The eligible predictor set of awards 2 and 4. -/
def eligiblePredictors (s : St) : List String :=
  (maePredictors s).filter
    (fun pid => (predictorCoverage s pid).getD 0 ≥ minCoverageThreshold s)

/-- One step of the best-predictor loop body: beat the running minimum
(Infinity is modelled by none), or tie with it, or be ignored. -/
def argminStep (f : String → ℚ) (acc : Option ℚ × List String) (pid : String) :
    Option ℚ × List String :=
  match acc.1 with
  | none => (some (f pid), [pid])
  | some m =>
    if f pid < m then (some (f pid), [pid])
    else if f pid = m then (some m, acc.2 ++ [pid])
    else acc

/-- The argmin scan of the best-predictor loop: minMAE starts at Infinity
(modelled by none), ties are appended. -/
def argminScan (f : String → ℚ) (l : List String) : Option ℚ × List String :=
  l.foldl (argminStep f) (none, [])

/-- One step of the worst-predictor and hardest-target loop bodies: beat
the running maximum, tie with it, or be ignored. -/
def argmaxStep (f : String → ℚ) (acc : ℚ × List String) (pid : String) :
    ℚ × List String :=
  if f pid > acc.1 then (f pid, [pid])
  else if f pid = acc.1 then (acc.1, acc.2 ++ [pid])
  else acc

/-- The argmax scan of the worst-predictor and hardest-target loops:
the maximum starts at -1, ties are appended. -/
def argmaxScan (f : String → ℚ) (l : List String) : ℚ × List String :=
  l.foldl (argmaxStep f) (-1, [])

/-- The Kotzstempel scan: highest actual drink count over the participants,
maximum starts at -1, ties appended.  Drink counts are integers, so this
scan stays in Int. -/
def kotzScan (s : St) : Int × List Participant :=
  s.participants.foldl
    (fun acc p =>
      let d : Int := getParticipantDrinkCount s p.id
      if d > acc.1 then (d, [p])
      else if d = acc.1 then (acc.1, acc.2 ++ [p])
      else acc)
    (-1, [])

/-- The (totalError, count) accumulator of the per-target crowd loop. -/
def crowdTotals (s : St) (tid : String) : ℚ × Nat :=
  (predictorKeys s).foldl
    (fun acc pid =>
      match predLookup s pid tid with
      | some v =>
        (acc.1 + |(v : ℚ) - (getParticipantDrinkCount s tid : ℚ)|, acc.2 + 1)
      | none => acc)
    (0, 0)

/-- targetCrowdMAE[tid], defined only for targets with at least two
predictors. -/
def targetCrowdMAE (s : St) (tid : String) : Option ℚ :=
  let t := crowdTotals s tid
  if t.2 ≥ 2 then some (t.1 / t.2) else none

/-- Keys of the targetCrowdMAE object: participant ids with a defined crowd
MAE, in participant order. -/
def crowdTargets (s : St) : List String :=
  (s.participants.map (·.id)).filter (fun tid => (targetCrowdMAE s tid).isSome)

/-- An award: its German label and the (name, avatar) payload of each tied
winner. -/
structure Award where
  name : String
  winners : List (String × String)
deriving DecidableEq, Repr

/-- Winner payload of the id-based awards: map each id to the participant
found for it, drop ids that name no participant (the filter(p => p) of the
source), then project name and avatar. -/
def winnersPayload (s : St) (ids : List String) : List (String × String) :=
  (ids.filterMap (fun pid => s.participants.find? (fun p => p.id = pid))).map
    (fun p => (p.name, p.avatar))

/-- Winner ids of the best-predictor (Spülsüchtigen) loop: argmin of MAE
over the eligible predictors. -/
def bestPredictorWinnerIds (s : St) : List String :=
  (argminScan (fun pid => (predictorMAE s pid).getD 0) (eligiblePredictors s)).2

/-- Winner ids of the worst-predictor (Schwarzer Peter) loop: argmax of MAE
over the eligible predictors. -/
def worstPredictorWinnerIds (s : St) : List String :=
  (argmaxScan (fun pid => (predictorMAE s pid).getD 0) (eligiblePredictors s)).2

/-- Winner ids of the hardest-target (Stille Wasser) loop. -/
def stilleWinnerIds (s : St) : List String :=
  (argmaxScan (fun tid => (targetCrowdMAE s tid).getD 0) (crowdTargets s)).2

/-- computeAwards of server.js: empty when there are no participants,
otherwise the Kotzstempel, best-predictor, hardest-target and
worst-predictor awards in order, each pushed only when its winner list
(before the payload filter) is non-empty, and the predictor awards only
when the eligible set is non-empty. -/
def computeAwards (s : St) : List Award :=
  if s.participants.isEmpty then []
  else
    let kotzWinners := (kotzScan s).2
    let kotzAwards : List Award :=
      if kotzWinners.isEmpty then []
      else [⟨"Kotzstempel", kotzWinners.map (fun p => (p.name, p.avatar))⟩]
    let elig := eligiblePredictors s
    let bestAwards : List Award :=
      if elig.isEmpty then []
      else if (bestPredictorWinnerIds s).isEmpty then []
      else [⟨"Spülsüchtigen", winnersPayload s (bestPredictorWinnerIds s)⟩]
    let stilleAwards : List Award :=
      if (crowdTargets s).isEmpty then []
      else if (stilleWinnerIds s).isEmpty then []
      else [⟨"Stille Wasser sind tief", winnersPayload s (stilleWinnerIds s)⟩]
    let worstAwards : List Award :=
      if elig.isEmpty then []
      else if (worstPredictorWinnerIds s).isEmpty then []
      else [⟨"Schwarzer Peter", winnersPayload s (worstPredictorWinnerIds s)⟩]
    kotzAwards ++ bestAwards ++ stilleAwards ++ worstAwards

/-- Membership in the deduplicated key list. -/
theorem mem_keysInOrder (a : String) :
    ∀ (l seen : List String), a ∈ keysInOrder seen l ↔ a ∈ l ∧ a ∉ seen := by
  intro l
  induction l with
  | nil => intro seen; simp [keysInOrder]
  | cons b l ih =>
    intro seen
    by_cases hb : b ∈ seen
    · rw [keysInOrder, if_pos hb, ih]
      constructor
      · rintro ⟨h1, h2⟩
        exact ⟨List.mem_cons_of_mem _ h1, h2⟩
      · rintro ⟨h1, h2⟩
        rcases List.mem_cons.mp h1 with rfl | h1
        · exact absurd hb h2
        · exact ⟨h1, h2⟩
    · rw [keysInOrder, if_neg hb]
      constructor
      · intro h
        rcases List.mem_cons.mp h with rfl | h
        · exact ⟨List.mem_cons_self _ _, hb⟩
        · rcases (ih _).mp h with ⟨h1, h2⟩
          simp only [List.mem_cons, not_or] at h2
          exact ⟨List.mem_cons_of_mem _ h1, h2.2⟩
      · rintro ⟨h1, h2⟩
        rcases List.mem_cons.mp h1 with rfl | h1
        · exact List.mem_cons_self _ _
        · by_cases hab : a = b
          · subst hab; exact List.mem_cons_self _ _
          · exact List.mem_cons_of_mem _
              ((ih _).mpr ⟨h1, by simp [hab, h2]⟩)

/-- A stored prediction makes the predictionsMap lookup of its pair succeed. -/
theorem predLookup_isSome_of_mem (s : St) (pr : Prediction) (h : pr ∈ s.predictions) :
    (predLookup s pr.predictorId pr.targetId).isSome = true := by
  unfold predLookup
  rw [Option.isSome_map']
  rw [List.getLast?_isSome]
  apply List.ne_nil_of_mem (a := pr)
  rw [List.mem_filter]
  exact ⟨h, by simp⟩

/-- A successful predictionsMap lookup comes from a stored prediction of the
pair with that predicted value. -/
theorem predLookup_spec (s : St) (pid tid : String) (v : Int)
    (h : predLookup s pid tid = some v) :
    ∃ pr ∈ s.predictions,
      pr.predictorId = pid ∧ pr.targetId = tid ∧ pr.predictedDrinks = v := by
  unfold predLookup at h
  cases hl : (s.predictions.filter
      (fun p => p.predictorId = pid && p.targetId = tid)).getLast? with
  | none => rw [hl] at h; simp at h
  | some pr =>
    rw [hl] at h
    simp only [Option.map_some'] at h
    injection h with h
    have hmem := List.mem_of_mem_getLast? hl
    rw [List.mem_filter] at hmem
    obtain ⟨hmem, hp⟩ := hmem
    simp only [Bool.and_eq_true, decide_eq_true_eq] at hp
    exact ⟨pr, hmem, hp.1, hp.2, h⟩

/-- The count component of the per-predictor accumulator counts the covered
existing targets. -/
theorem foldTotals_snd (s : St) (pid : String) :
    ∀ (l : List Participant) (acc : ℚ × Nat),
      (l.foldl
        (fun acc target =>
          match predLookup s pid target.id with
          | some v =>
            (acc.1 + |(v : ℚ) - (getParticipantDrinkCount s target.id : ℚ)|, acc.2 + 1)
          | none => acc) acc).2
      = acc.2 + (l.filter (fun t => (predLookup s pid t.id).isSome)).length := by
  intro l
  induction l with
  | nil => intro acc; simp
  | cons t l ih =>
    intro acc
    rw [List.foldl_cons, List.filter_cons]
    cases h : predLookup s pid t.id with
    | none => simp only [h]; rw [ih]; simp [h]
    | some v => simp only [h]; rw [ih]; simp [h]; omega

/-- predictorTotals counts the covered existing targets. -/
theorem predictorTotals_snd (s : St) (pid : String) :
    (predictorTotals s pid).2
      = (s.participants.filter (fun t => (predLookup s pid t.id).isSome)).length := by
  simpa [predictorTotals] using foldTotals_snd s pid s.participants (0, 0)

/-- The error component of the per-predictor accumulator never decreases
below its start, being a sum of absolute values. -/
theorem foldTotals_fst_nonneg (s : St) (pid : String) :
    ∀ (l : List Participant) (acc : ℚ × Nat), 0 ≤ acc.1 →
      0 ≤ (l.foldl
        (fun acc target =>
          match predLookup s pid target.id with
          | some v =>
            (acc.1 + |(v : ℚ) - (getParticipantDrinkCount s target.id : ℚ)|, acc.2 + 1)
          | none => acc) acc).1 := by
  intro l
  induction l with
  | nil => intro acc hacc; simpa using hacc
  | cons t l ih =>
    intro acc hacc
    rw [List.foldl_cons]
    cases h : predLookup s pid t.id with
    | none => simp only [h]; exact ih _ hacc
    | some v =>
      simp only [h]
      exact ih _ (by positivity)

/-- When every stored prediction is exactly right, the error component of
the per-predictor accumulator stays at its start. -/
theorem foldTotals_fst_exact (s : St) (pid : String)
    (H : ∀ pr ∈ s.predictions,
      pr.predictedDrinks = (getParticipantDrinkCount s pr.targetId : Int)) :
    ∀ (l : List Participant) (acc : ℚ × Nat),
      (l.foldl
        (fun acc target =>
          match predLookup s pid target.id with
          | some v =>
            (acc.1 + |(v : ℚ) - (getParticipantDrinkCount s target.id : ℚ)|, acc.2 + 1)
          | none => acc) acc).1 = acc.1 := by
  intro l
  induction l with
  | nil => intro acc; rfl
  | cons t l ih =>
    intro acc
    rw [List.foldl_cons]
    cases h : predLookup s pid t.id with
    | none => simp only [h]; exact ih _
    | some v =>
      have hv : v = (getParticipantDrinkCount s t.id : Int) := by
        obtain ⟨pr, hmem, hp1, hp2, hp3⟩ := predLookup_spec s pid t.id v h
        rw [← hp3, H pr hmem, hp2]
      simp only [h]
      rw [ih]
      rw [hv]
      push_cast
      simp

/-- predictorMAE is defined exactly when the predictor covered a target. -/
theorem predictorMAE_isSome_iff (s : St) (pid : String) :
    (predictorMAE s pid).isSome = true ↔ 0 < (predictorTotals s pid).2 := by
  unfold predictorMAE
  by_cases h : (predictorTotals s pid).2 > 0 <;> simp [h]

/-- A defined predictorMAE is non-negative. -/
theorem predictorMAE_nonneg (s : St) (pid : String) (m : ℚ)
    (h : predictorMAE s pid = some m) : 0 ≤ m := by
  unfold predictorMAE at h
  by_cases h2 : (predictorTotals s pid).2 > 0
  · rw [if_pos h2] at h
    injection h with h
    rw [← h]
    apply div_nonneg
    · simpa [predictorTotals] using foldTotals_fst_nonneg s pid s.participants (0, 0) le_rfl
    · positivity
  · rw [if_neg h2] at h; exact absurd h (by simp)

/-- When every stored prediction is exactly right, every defined
predictorMAE is zero. -/
theorem predictorMAE_eq_zero (s : St)
    (H : ∀ pr ∈ s.predictions,
      pr.predictedDrinks = (getParticipantDrinkCount s pr.targetId : Int))
    (pid : String) (hs : (predictorMAE s pid).isSome = true) :
    predictorMAE s pid = some 0 := by
  have hz : (predictorTotals s pid).1 = 0 := by
    simpa [predictorTotals] using foldTotals_fst_exact s pid H s.participants (0, 0)
  rw [predictorMAE_isSome_iff] at hs
  unfold predictorMAE
  rw [if_pos hs, hz]
  simp

/-- The winner list of the argmin scan stays non-empty once non-empty. -/
theorem argminFold_ne_nil (f : String → ℚ) :
    ∀ (l : List String) (acc : Option ℚ × List String), acc.2 ≠ [] →
      (l.foldl (argminStep f) acc).2 ≠ [] := by
  intro l
  induction l with
  | nil => intro acc hacc; simpa using hacc
  | cons x l ih =>
    intro acc hacc
    rw [List.foldl_cons]
    apply ih
    rcases acc with ⟨m?, w⟩
    cases m? with
    | none => simp [argminStep]
    | some m =>
      by_cases h1 : f x < m
      · simp [argminStep, h1]
      · by_cases h2 : f x = m
        · simp [argminStep, h1, h2]
        · simpa [argminStep, h1, h2] using hacc

/-- The argmin scan of a non-empty list has at least one winner. -/
theorem argminScan_ne_nil (f : String → ℚ) (l : List String) (h : l ≠ []) :
    (argminScan f l).2 ≠ [] := by
  cases l with
  | nil => exact absurd rfl h
  | cons x l =>
    unfold argminScan
    rw [List.foldl_cons]
    exact argminFold_ne_nil f l _ (by simp [argminStep])

/-- The winner list of the argmax scan stays non-empty once non-empty. -/
theorem argmaxFold_ne_nil (f : String → ℚ) :
    ∀ (l : List String) (acc : ℚ × List String), acc.2 ≠ [] →
      (l.foldl (argmaxStep f) acc).2 ≠ [] := by
  intro l
  induction l with
  | nil => intro acc hacc; simpa using hacc
  | cons x l ih =>
    intro acc hacc
    rw [List.foldl_cons]
    apply ih
    rcases acc with ⟨m, w⟩
    by_cases h1 : f x > m
    · simp [argmaxStep, h1]
    · by_cases h2 : f x = m
      · simp [argmaxStep, h1, h2]
      · simpa [argmaxStep, h1, h2] using hacc

/-- The argmax scan of a non-empty list of non-negative values has at least
one winner (the start value -1 is always beaten). -/
theorem argmaxScan_ne_nil (f : String → ℚ) (l : List String) (h : l ≠ [])
    (hf : ∀ x ∈ l, 0 ≤ f x) : (argmaxScan f l).2 ≠ [] := by
  cases l with
  | nil => exact absurd rfl h
  | cons x l =>
    unfold argmaxScan
    rw [List.foldl_cons]
    have hx : argmaxStep f (-1, []) x = (f x, [x]) := by
      have : f x > -1 := lt_of_lt_of_le (by norm_num) (hf x (List.mem_cons_self _ _))
      simp [argmaxStep, this]
    rw [hx]
    exact argmaxFold_ne_nil f l _ (by simp)

/-- When all values are equal to the running minimum, the argmin fold
appends every element to the winners. -/
theorem argminFold_const (f : String → ℚ) (m : ℚ) :
    ∀ (l : List String) (w : List String), (∀ x ∈ l, f x = m) →
      l.foldl (argminStep f) ((some m, w) : Option ℚ × List String) = (some m, w ++ l) := by
  intro l
  induction l with
  | nil => intro w _; simp
  | cons x l ih =>
    intro w hall
    have hx : f x = m := hall x (List.mem_cons_self _ _)
    rw [List.foldl_cons]
    have hstep : argminStep f (some m, w) x = (some m, w ++ [x]) := by
      simp [argminStep, hx]
    rw [hstep, ih (w ++ [x]) (fun y hy => hall y (List.mem_cons_of_mem _ hy))]
    simp

/-- When all values are equal, the argmin scan keeps every element as a
tied winner. -/
theorem argminScan_const (f : String → ℚ) (m : ℚ) (l : List String)
    (h : ∀ x ∈ l, f x = m) : (argminScan f l).2 = l := by
  cases l with
  | nil => rfl
  | cons x l =>
    unfold argminScan
    rw [List.foldl_cons]
    have hx : f x = m := h x (List.mem_cons_self _ _)
    have hstep : argminStep f (none, []) x = (some m, [x]) := by
      simp [argminStep, hx]
    rw [hstep, argminFold_const f m l [x] (fun y hy => h y (List.mem_cons_of_mem _ hy))]
    simp

/-- When all values are equal to the running maximum, the argmax fold
appends every element to the winners. -/
theorem argmaxFold_const (f : String → ℚ) (m : ℚ) :
    ∀ (l : List String) (w : List String), (∀ x ∈ l, f x = m) →
      l.foldl (argmaxStep f) ((m, w) : ℚ × List String) = (m, w ++ l) := by
  intro l
  induction l with
  | nil => intro w _; simp
  | cons x l ih =>
    intro w hall
    have hx : f x = m := hall x (List.mem_cons_self _ _)
    rw [List.foldl_cons]
    have hstep : argmaxStep f (m, w) x = (m, w ++ [x]) := by
      simp [argmaxStep, hx]
    rw [hstep, ih (w ++ [x]) (fun y hy => hall y (List.mem_cons_of_mem _ hy))]
    simp

/-- When all values are equal and above the start value -1, the argmax scan
keeps every element as a tied winner. -/
theorem argmaxScan_const (f : String → ℚ) (m : ℚ) (l : List String)
    (hm : -1 < m) (h : ∀ x ∈ l, f x = m) : (argmaxScan f l).2 = l := by
  cases l with
  | nil => rfl
  | cons x l =>
    unfold argmaxScan
    rw [List.foldl_cons]
    have hx : f x = m := h x (List.mem_cons_self _ _)
    have hstep : argmaxStep f (-1, []) x = (m, [x]) := by
      simp [argmaxStep, hx, hm]
    rw [hstep, argmaxFold_const f m l [x] (fun y hy => h y (List.mem_cons_of_mem _ hy))]
    simp

/-- C9: when at least one prediction exists and every stored prediction
equals its target's actual consumption count, the best-predictor and
worst-predictor winner lists coincide, and every coverage-eligible
predictor is in both lists with mean absolute error zero. -/
theorem c9_exact_predictions (s : St)
    (_hne : s.predictions ≠ [])
    (H : ∀ pr ∈ s.predictions,
      pr.predictedDrinks = (getParticipantDrinkCount s pr.targetId : Int)) :
    bestPredictorWinnerIds s = worstPredictorWinnerIds s ∧
    ∀ pid ∈ eligiblePredictors s,
      pid ∈ bestPredictorWinnerIds s ∧ pid ∈ worstPredictorWinnerIds s ∧
      predictorMAE s pid = some 0 := by
  have hmae : ∀ pid ∈ eligiblePredictors s, predictorMAE s pid = some 0 := by
    intro pid hpid
    have h1 : pid ∈ maePredictors s := List.mem_of_mem_filter hpid
    have h2 : (predictorMAE s pid).isSome = true := (List.mem_filter.mp h1).2
    exact predictorMAE_eq_zero s H pid h2
  have hf : ∀ pid ∈ eligiblePredictors s,
      (fun q => (predictorMAE s q).getD 0) pid = 0 := by
    intro pid hpid
    simp [hmae pid hpid]
  have hbest : bestPredictorWinnerIds s = eligiblePredictors s := by
    unfold bestPredictorWinnerIds
    rw [argminScan_const _ 0 _ hf]
  have hworst : worstPredictorWinnerIds s = eligiblePredictors s := by
    unfold worstPredictorWinnerIds
    rw [argmaxScan_const _ 0 _ (by norm_num) hf]
  refine ⟨hbest.trans hworst.symm, fun pid hpid => ⟨?_, ?_, hmae pid hpid⟩⟩
  · rw [hbest]; exact hpid
  · rw [hworst]; exact hpid

/-- A two-participant state where the one stored prediction is exactly
right: "a" predicted 1 drink for "b" and "b" consumed exactly one. -/
def exactState : St :=
  { drinks := [], consumptions := [⟨"Beer", some "b", 0⟩], events := [],
    participants := [⟨"a", "A", "", 0⟩, ⟨"b", "B", "", 0⟩],
    predictions := [⟨"p1", "a", "b", 1⟩], eventSettings := ⟨none, false⟩ }

/-- C9 witness: the exact-prediction theorem applied to a concrete state
where every prediction is exactly right. -/
theorem c9_exact_predictions_witness :
    (exactState.predictions ≠ [] ∧
      ∀ pr ∈ exactState.predictions,
        pr.predictedDrinks = (getParticipantDrinkCount exactState pr.targetId : Int)) ∧
    (bestPredictorWinnerIds exactState = worstPredictorWinnerIds exactState ∧
      ∀ pid ∈ eligiblePredictors exactState,
        pid ∈ bestPredictorWinnerIds exactState ∧
        pid ∈ worstPredictorWinnerIds exactState ∧
        predictorMAE exactState pid = some 0) :=
  ⟨⟨by decide, by decide⟩, c9_exact_predictions exactState (by decide) (by decide)⟩

/-- The coverage of a predictor who covered at least one target among at
most 100 participants clears the lowest rung of the threshold ladder. -/
theorem predictorCoverage_ge (s : St) (pid : String)
    (hc : 1 ≤ (predictorTotals s pid).2)
    (hn1 : 1 ≤ s.participants.length) (hn : s.participants.length ≤ 100) :
    (predictorCoverage s pid).getD 0 ≥ 1/100 := by
  unfold predictorCoverage
  rw [if_pos (by omega)]
  simp only [Option.getD_some]
  have hnq : (0 : ℚ) < (s.participants.length : ℚ) := by
    exact_mod_cast Nat.lt_of_lt_of_le Nat.zero_lt_one hn1
  calc (1 : ℚ)/100 ≤ 1/(s.participants.length : ℚ) := by
        apply one_div_le_one_div_of_le hnq
        exact_mod_cast hn
    _ ≤ ((predictorTotals s pid).2 : ℚ)/(s.participants.length : ℚ) := by
        apply (div_le_div_iff_of_pos_right hnq).mpr
        exact_mod_cast hc

/-- Either some predictor clears the selected coverage threshold, or the
ladder bottomed out at 0.01. -/
theorem minCoverageThreshold_cases (s : St) :
    (∃ q ∈ maePredictors s,
      (predictorCoverage s q).getD 0 ≥ minCoverageThreshold s) ∨
    minCoverageThreshold s = 1/100 := by
  unfold minCoverageThreshold
  split
  · next h1 =>
    left
    obtain ⟨q, hq, hq2⟩ := List.any_eq_true.mp h1
    exact ⟨q, hq, by simpa using hq2⟩
  · next h1 =>
    split
    · next h2 =>
      left
      obtain ⟨q, hq, hq2⟩ := List.any_eq_true.mp h2
      exact ⟨q, hq, by simpa using hq2⟩
    · next h2 => right; rfl

/-- The eligible set is non-empty as soon as some predictor with a defined
MAE has coverage at least 0.01. -/
theorem eligible_ne_nil_of (s : St) (pid : String)
    (hmem : pid ∈ maePredictors s)
    (hcov : (predictorCoverage s pid).getD 0 ≥ 1/100) :
    eligiblePredictors s ≠ [] := by
  rcases minCoverageThreshold_cases s with ⟨q, hq, hq2⟩ | hthr
  · apply List.ne_nil_of_mem (a := q)
    unfold eligiblePredictors
    rw [List.mem_filter]
    exact ⟨hq, by simpa using hq2⟩
  · apply List.ne_nil_of_mem (a := pid)
    unfold eligiblePredictors
    rw [List.mem_filter]
    refine ⟨hmem, ?_⟩
    rw [hthr]
    simpa using hcov

/-- C4 (amended): under the code's definitions — coverage is covered
targets over all participants, and the ladder is 0.5, then 0.33, then
0.01 — whenever some stored prediction targets an existing participant and
there are at most 100 participants, the eligible set is non-empty and both
the best-predictor and the worst-predictor awards are produced. -/
theorem c4_award_production (s : St) (pr : Prediction) (t : Participant)
    (hmem : pr ∈ s.predictions) (ht : t ∈ s.participants) (htid : t.id = pr.targetId)
    (hn : s.participants.length ≤ 100) :
    eligiblePredictors s ≠ [] ∧
    (computeAwards s).any (fun a => a.name = "Spülsüchtigen") = true ∧
    (computeAwards s).any (fun a => a.name = "Schwarzer Peter") = true := by
  have hlookup : (predLookup s pr.predictorId pr.targetId).isSome = true :=
    predLookup_isSome_of_mem s pr hmem
  have hcount : 1 ≤ (predictorTotals s pr.predictorId).2 := by
    rw [predictorTotals_snd]
    have htf : t ∈ s.participants.filter
        (fun q => (predLookup s pr.predictorId q.id).isSome) := by
      rw [List.mem_filter]
      refine ⟨ht, ?_⟩
      rw [htid]
      exact hlookup
    have := List.length_pos.mpr (List.ne_nil_of_mem htf)
    omega
  have hmaes : (predictorMAE s pr.predictorId).isSome = true := by
    rw [predictorMAE_isSome_iff]; omega
  have hkeys : pr.predictorId ∈ predictorKeys s := by
    unfold predictorKeys
    rw [mem_keysInOrder]
    exact ⟨List.mem_map_of_mem _ hmem, by simp⟩
  have hmp : pr.predictorId ∈ maePredictors s := by
    unfold maePredictors
    rw [List.mem_filter]
    exact ⟨hkeys, hmaes⟩
  have hn1 : 1 ≤ s.participants.length := by
    have := List.length_pos.mpr (List.ne_nil_of_mem ht)
    omega
  have helig : eligiblePredictors s ≠ [] :=
    eligible_ne_nil_of s pr.predictorId hmp (predictorCoverage_ge s _ hcount hn1 hn)
  have hfnn : ∀ q ∈ eligiblePredictors s, 0 ≤ (predictorMAE s q).getD 0 := by
    intro q hq
    have hqs : (predictorMAE s q).isSome = true :=
      (List.mem_filter.mp (List.mem_of_mem_filter hq)).2
    cases hm : predictorMAE s q with
    | none => rw [hm] at hqs; simp at hqs
    | some m => simp only [hm, Option.getD_some]; exact predictorMAE_nonneg s q m hm
  have hbest : bestPredictorWinnerIds s ≠ [] := argminScan_ne_nil _ _ helig
  have hworst : worstPredictorWinnerIds s ≠ [] := argmaxScan_ne_nil _ _ helig hfnn
  have hpart : ¬ s.participants.isEmpty = true := by
    rw [List.isEmpty_iff]
    exact List.ne_nil_of_mem ht
  have he : (eligiblePredictors s).isEmpty = false :=
    Bool.eq_false_iff.mpr (fun h => helig (List.isEmpty_iff.mp h))
  have hbw : (bestPredictorWinnerIds s).isEmpty = false :=
    Bool.eq_false_iff.mpr (fun h => hbest (List.isEmpty_iff.mp h))
  have hww : (worstPredictorWinnerIds s).isEmpty = false :=
    Bool.eq_false_iff.mpr (fun h => hworst (List.isEmpty_iff.mp h))
  refine ⟨helig, ?_, ?_⟩
  · rw [List.any_eq_true]
    refine ⟨⟨"Spülsüchtigen", winnersPayload s (bestPredictorWinnerIds s)⟩, ?_, by simp⟩
    unfold computeAwards
    rw [if_neg hpart]
    simp [he, hbw, List.mem_append]
  · rw [List.any_eq_true]
    refine ⟨⟨"Schwarzer Peter", winnersPayload s (worstPredictorWinnerIds s)⟩, ?_, by simp⟩
    unfold computeAwards
    rw [if_neg hpart]
    simp [he, hww, List.mem_append]

/-- A two-participant state with one stored prediction that targets an
existing participant. -/
def coveredState : St :=
  { drinks := [], consumptions := [], events := [],
    participants := [⟨"a", "A", "", 0⟩, ⟨"b", "B", "", 0⟩],
    predictions := [⟨"p1", "a", "b", 2⟩], eventSettings := ⟨none, false⟩ }

/-- C4 witness: the award-production theorem applied at a concrete state. -/
theorem c4_award_production_witness :
    eligiblePredictors coveredState ≠ [] ∧
    (computeAwards coveredState).any (fun a => a.name = "Spülsüchtigen") = true ∧
    (computeAwards coveredState).any (fun a => a.name = "Schwarzer Peter") = true :=
  c4_award_production coveredState ⟨"p1", "a", "b", 2⟩ ⟨"b", "B", "", 0⟩
    (by decide) (by decide) (by decide) (by decide)

/-- A state with one participant and one prediction whose target id names
no participant. -/
def ghostTargetState : St :=
  { drinks := [], consumptions := [], events := [],
    participants := [⟨"a", "Alice", "", 0⟩],
    predictions := [⟨"p1", "a", "ghost", 5⟩], eventSettings := ⟨none, false⟩ }

/-- A three-participant state in which "a" predicted exactly one of the two
other participants. -/
def thirdCoverageState : St :=
  { drinks := [], consumptions := [], events := [],
    participants := [⟨"a", "Alice", "", 0⟩, ⟨"b", "Bob", "", 0⟩, ⟨"c", "Carol", "", 0⟩],
    predictions := [⟨"p1", "a", "b", 0⟩], eventSettings := ⟨none, false⟩ }

/-- C4 counterexample: (i) a prediction exists in ghostTargetState, yet the
eligible set is empty and computeAwards returns only the Kotzstempel award —
no best- or worst-predictor award is produced; (ii) in thirdCoverageState the
code computes coverage 1/3 for "a" (covered targets over all three
participants), not the fraction 1/2 of the other participants predicted. -/
theorem c4_counterexample :
    (ghostTargetState.predictions ≠ [] ∧
      eligiblePredictors ghostTargetState = [] ∧
      computeAwards ghostTargetState = [⟨"Kotzstempel", [("Alice", "")]⟩]) ∧
    (predictorCoverage thirdCoverageState "a" = some (1/3) ∧
      ((1 : ℚ)/3 ≠ 1/2)) := by
  refine ⟨by decide, ?_, by norm_num⟩
  have ht : predictorTotals thirdCoverageState "a" = (0, 1) := by
    simp +decide [predictorTotals, thirdCoverageState, predLookup, getParticipantDrinkCount,
      List.foldl, List.filter]
  unfold predictorCoverage
  rw [ht]
  norm_num [thirdCoverageState]

/-- Bucket key of a timestamp: Math.floor(timestamp / 60000). -/
def bucketKeyOf (ts : Int) : Int := Int.fdiv ts 60000

/-- One minute bucket: its key (the bucket start is key * 60000, the value
serialized as the ISO timestamp in the source) and the per-drink counters
(a JS object modelled as an insertion-ordered association list). -/
structure Bucket where
  key : Int
  drinks : List (String × Nat)
deriving DecidableEq, Repr

/-- One iteration of the bucket-initialization loop: compute the key of
now - i minutes and insert an empty bucket unless the key is present. -/
def initStep (now : Int) (acc : List Bucket) (i : ℕ) : List Bucket :=
  if acc.any (fun b => b.key = Int.fdiv (now - (i : Int) * 60000) 60000) then acc
  else acc ++ [⟨Int.fdiv (now - (i : Int) * 60000) 60000, []⟩]

/-- The 60 empty buckets materialized for i = 0..59. -/
def initBuckets (now : Int) : List Bucket :=
  (List.range 60).foldl (initStep now) []

/-- Increment the counter of a drink inside a bucket's drinks object
(initialize to 0 when absent, then add one). -/
def bumpDrink (ds : List (String × Nat)) (dn : String) : List (String × Nat) :=
  if ds.any (fun e => e.1 = dn) then
    ds.map (fun e => if e.1 = dn then (e.1, e.2 + 1) else e)
  else ds ++ [(dn, 1)]

/-- Route one consumption into the bucket holding its key; consumptions
whose key is not among the materialized buckets are dropped. -/
def addConsumption (bs : List Bucket) (c : Consumption) : List Bucket :=
  if bs.any (fun b => b.key = bucketKeyOf c.occurredAt) then
    bs.map (fun b =>
      if b.key = bucketKeyOf c.occurredAt then ⟨b.key, bumpDrink b.drinks c.drinkName⟩
      else b)
  else bs

/-- The consumptions of the trailing 60 minutes (timestamp at or after
now - 60 minutes). -/
def recentConsumptions (s : St) (now : Int) : List Consumption :=
  s.consumptions.filter (fun c => now - 60 * 60 * 1000 ≤ c.occurredAt)

/-- Result of the aggregator: the sorted bucket sequence and the recent
event markers. -/
structure AggStats where
  buckets : List Bucket
  recentEvents : List EventMarker
deriving DecidableEq, Repr

instance : DecidableRel (fun a b : Bucket => a.key ≤ b.key) :=
  fun a b => Int.decLe a.key b.key

/-- Ascending sort of the bucket array.  The source sorts by the parsed
bucket timestamp, which is key * 60000, so the order is the key order; the
sorting algorithm is irrelevant because the keys are distinct. -/
def sortBuckets (bs : List Bucket) : List Bucket :=
  List.insertionSort (fun a b => a.key ≤ b.key) bs

/-- getAggregatedStats of server.js: filter to the trailing hour,
materialize 60 minute buckets, aggregate, sort ascending. -/
def getAggregatedStats (s : St) (now : Int) : AggStats :=
  { buckets := sortBuckets ((recentConsumptions s now).foldl addConsumption (initBuckets now))
    recentEvents := s.events.filter (fun e => now - 60 * 60 * 1000 ≤ e.occurredAt) }

/-- The counter stored for a drink in a bucket's drinks object (0 when the
drink has no entry). -/
def drinkCount (ds : List (String × Nat)) (dn : String) : Nat :=
  ((ds.find? (fun e => e.1 = dn)).map (fun e => e.2)).getD 0

/-- The drinks object a bucket with the given key ends up with: all
in-window consumptions whose key it is, folded by the counter bump. -/
def bucketDrinksAt (s : St) (now : Int) (k : Int) : List (String × Nat) :=
  ((recentConsumptions s now).filter (fun c => bucketKeyOf c.occurredAt = k)).foldl
    (fun ds c => bumpDrink ds c.drinkName) []

/-- The key materialized at loop index i is floor(now/60000) - i. -/
theorem initKey_eq (now : Int) (i : ℕ) :
    Int.fdiv (now - (i : Int) * 60000) 60000 = Int.fdiv now 60000 - i := by
  rw [Int.fdiv_eq_ediv _ (by norm_num), Int.fdiv_eq_ediv _ (by norm_num)]
  have h : now - (i : Int) * 60000 = now + (-(i : Int)) * 60000 := by ring
  rw [h, Int.add_mul_ediv_right _ _ (by norm_num : (60000 : ℤ) ≠ 0)]
  ring

/-- When the key of index i is fresh, the initialization step appends a new
empty bucket for it. -/
theorem initStep_eq (now : Int) (acc : List Bucket) (i : ℕ)
    (h : ∀ b ∈ acc, b.key ≠ Int.fdiv now 60000 - i) :
    initStep now acc i = acc ++ [⟨Int.fdiv now 60000 - i, []⟩] := by
  unfold initStep
  simp only [initKey_eq]
  rw [if_neg]
  intro hc
  obtain ⟨b, hb, hbe⟩ := List.any_eq_true.mp hc
  exact h b hb (by simpa using hbe)

/-- Folding the initialization over distinct indices whose keys avoid the
accumulator appends one empty bucket per index. -/
theorem initFold_eq (now : Int) :
    ∀ (l : List ℕ) (acc : List Bucket),
      l.Pairwise (fun i j => i ≠ j) →
      (∀ i ∈ l, ∀ b ∈ acc, b.key ≠ Int.fdiv now 60000 - i) →
      l.foldl (initStep now) acc
        = acc ++ l.map (fun i => ⟨Int.fdiv now 60000 - i, []⟩) := by
  intro l
  induction l with
  | nil => intro acc _ _; simp
  | cons i l ih =>
    intro acc hpw hdisj
    rw [List.foldl_cons, initStep_eq now acc i (hdisj i (List.mem_cons_self _ _))]
    rw [ih _ hpw.of_cons ?_]
    · simp
    intro j hj b hb
    rcases List.mem_append.mp hb with hb | hb
    · exact hdisj j (List.mem_cons_of_mem _ hj) b hb
    · have hbj : b = (⟨Int.fdiv now 60000 - i, []⟩ : Bucket) := by simpa using hb
      subst hbj
      simp only
      intro heq
      have hij : (i : Int) = (j : Int) := by omega
      exact (List.pairwise_cons.mp hpw).1 j hj (by exact_mod_cast hij)

/-- The initialized buckets are exactly the 60 keys
floor(now/60000) - 0 .. floor(now/60000) - 59, in that order, all empty. -/
theorem initBuckets_eq (now : Int) :
    initBuckets now
      = (List.range 60).map (fun i => ⟨Int.fdiv now 60000 - i, []⟩) := by
  unfold initBuckets
  rw [initFold_eq now (List.range 60) [] ((List.nodup_range 60).imp (fun h => h))
    (fun i _ b hb => absurd hb (List.not_mem_nil b))]
  simp

/-- Routing a consumption is the same as bumping every bucket that holds
its key (when no bucket does, the map is the identity). -/
theorem addConsumption_eq_map (bs : List Bucket) (c : Consumption) :
    addConsumption bs c
      = bs.map (fun b =>
          if b.key = bucketKeyOf c.occurredAt then ⟨b.key, bumpDrink b.drinks c.drinkName⟩
          else b) := by
  unfold addConsumption
  by_cases h : bs.any (fun b => b.key = bucketKeyOf c.occurredAt) = true
  · rw [if_pos h]
  · rw [if_neg h]
    have hnone : ∀ b ∈ bs, b.key ≠ bucketKeyOf c.occurredAt := by
      intro b hb heq
      exact h (List.any_eq_true.mpr ⟨b, hb, by simpa using heq⟩)
    calc bs = bs.map id := (List.map_id bs).symm
      _ = _ := List.map_congr_left (fun b hb => by rw [id, if_neg (hnone b hb)])

/-- Folding the whole consumption list routes, bucket by bucket, exactly
the consumptions holding that bucket's key. -/
theorem foldAdd_eq_map :
    ∀ (cs : List Consumption) (bs : List Bucket),
      cs.foldl addConsumption bs
        = bs.map (fun b =>
            ⟨b.key, (cs.filter (fun c => bucketKeyOf c.occurredAt = b.key)).foldl
                (fun ds c => bumpDrink ds c.drinkName) b.drinks⟩) := by
  intro cs
  induction cs with
  | nil =>
    intro bs
    show bs = bs.map (fun b => ⟨b.key, b.drinks⟩)
    exact (List.map_id bs).symm
  | cons c cs ih =>
    intro bs
    rw [List.foldl_cons, ih (addConsumption bs c), addConsumption_eq_map, List.map_map]
    apply List.map_congr_left
    intro b _
    by_cases h : b.key = bucketKeyOf c.occurredAt
    · have hk : bucketKeyOf c.occurredAt = b.key := h.symm
      simp [Function.comp, if_pos h, List.filter_cons, hk]
    · have hk : ¬ bucketKeyOf c.occurredAt = b.key := fun heq => h heq.symm
      simp [Function.comp, if_neg h, List.filter_cons, hk]

/-- Bumping one drink raises that drink's counter by one and leaves every
other counter alone. -/
theorem drinkCount_bumpDrink (ds : List (String × Nat)) (n dn : String) :
    drinkCount (bumpDrink ds n) dn = drinkCount ds dn + (if n = dn then 1 else 0) := by
  unfold bumpDrink drinkCount
  by_cases hany : ds.any (fun e => e.1 = n) = true
  · rw [if_pos hany, List.find?_map]
    have hcomp :
        ((fun e : String × Nat => decide (e.1 = dn)) ∘
          (fun e : String × Nat => if e.1 = n then (e.1, e.2 + 1) else e))
        = fun e : String × Nat => decide (e.1 = dn) := by
      funext e
      by_cases he : e.1 = n <;> simp [he]
    rw [hcomp]
    cases hf : ds.find? (fun e => decide (e.1 = dn)) with
    | none =>
      by_cases hn : n = dn
      · obtain ⟨e, he, hpe⟩ := List.any_eq_true.mp hany
        have : ¬ (decide (e.1 = dn) = true) := (List.find?_eq_none.mp hf) e he
        exact absurd (by simp only [decide_eq_true_eq]; rw [hn] at hpe; simpa using hpe) this
      · simp [hn]
    | some e =>
      have hedn : e.1 = dn := by simpa using List.find?_some hf
      by_cases hn : n = dn
      · simp [hn, ← hedn]
      · have hen : ¬ e.1 = n := by rw [hedn]; exact fun heq => hn heq.symm
        simp [hn, hen]
  · rw [if_neg hany, List.find?_append]
    by_cases hn : n = dn
    · have hfn : ds.find? (fun e => decide (e.1 = dn)) = none := by
        rw [List.find?_eq_none]
        intro e he hpe
        exact hany (List.any_eq_true.mpr ⟨e, he,
          by simp only [decide_eq_true_eq] at hpe ⊢; rw [hpe, hn]⟩)
      simp [hfn, hn]
    · have hf1 : List.find? (fun e : String × Nat => decide (e.1 = dn)) [(n, 1)] = none := by
        simp [hn]
      simp [hf1, hn]

/-- Folding the bump over a consumption list adds, per drink, the number of
consumptions of that drink. -/
theorem drinkCount_foldBump (dn : String) :
    ∀ (cs : List Consumption) (ds : List (String × Nat)),
      drinkCount (cs.foldl (fun ds c => bumpDrink ds c.drinkName) ds) dn
        = drinkCount ds dn + (cs.filter (fun c => c.drinkName = dn)).length := by
  intro cs
  induction cs with
  | nil => intro ds; simp
  | cons c cs ih =>
    intro ds
    rw [List.foldl_cons, ih, drinkCount_bumpDrink, List.filter_cons]
    by_cases h : c.drinkName = dn
    · simp [h]; omega
    · simp [h]

instance : IsTotal Bucket (fun a b => a.key ≤ b.key) :=
  ⟨fun a b => le_total a.key b.key⟩

instance : IsTrans Bucket (fun a b => a.key ≤ b.key) :=
  ⟨fun _ _ _ h1 h2 => le_trans h1 h2⟩

instance : IsAntisymm Bucket (fun a b => a.key < b.key) :=
  ⟨fun _ _ h h' => absurd (lt_trans h h') (lt_irrefl _)⟩

/-- Any ascending sort of a bucket list with strictly descending keys is
its reversal. -/
theorem sortBuckets_of_desc (bs : List Bucket)
    (hdesc : bs.Pairwise (fun a b => b.key < a.key)) :
    sortBuckets bs = bs.reverse := by
  have hperm1 : (sortBuckets bs).Perm bs := List.perm_insertionSort _ bs
  have hperm : (sortBuckets bs).Perm bs.reverse :=
    hperm1.trans (List.reverse_perm bs).symm
  have hs1le : List.Sorted (fun a b : Bucket => a.key ≤ b.key) (sortBuckets bs) :=
    List.sorted_insertionSort _ bs
  have hne_bs : bs.Pairwise (fun a b : Bucket => a.key ≠ b.key) :=
    hdesc.imp (fun h => ne_of_gt h)
  have hne_sorted : (sortBuckets bs).Pairwise (fun a b : Bucket => a.key ≠ b.key) :=
    (List.Perm.pairwise_iff (fun h => h.symm) hperm1).mpr hne_bs
  have hs1 : List.Sorted (fun a b : Bucket => a.key < b.key) (sortBuckets bs) :=
    (hs1le.and hne_sorted).imp (fun h => lt_of_le_of_ne h.1 h.2)
  have hs2 : List.Sorted (fun a b : Bucket => a.key < b.key) bs.reverse := by
    rw [List.Sorted, List.pairwise_reverse]
    exact hdesc
  exact List.eq_of_perm_of_sorted hperm hs1 hs2

/-- Master characterization of the aggregator's bucket list: exactly the 60
keys floor(now/60000) - 59 .. floor(now/60000) in ascending order, each
carrying the counters of the in-window consumptions with that key. -/
theorem getAggregatedStats_buckets_eq (s : St) (now : Int) :
    (getAggregatedStats s now).buckets
      = (List.range 60).map (fun j =>
          ⟨Int.fdiv now 60000 - 59 + j,
            bucketDrinksAt s now (Int.fdiv now 60000 - 59 + j)⟩) := by
  have hagg :
      (recentConsumptions s now).foldl addConsumption (initBuckets now)
        = (List.range 60).map (fun i =>
            ⟨Int.fdiv now 60000 - i, bucketDrinksAt s now (Int.fdiv now 60000 - i)⟩) := by
    rw [foldAdd_eq_map, initBuckets_eq, List.map_map]
    apply List.map_congr_left
    intro i _
    simp [Function.comp, bucketDrinksAt]
  have hdesc :
      ((List.range 60).map (fun (i : ℕ) =>
          (⟨Int.fdiv now 60000 - i,
            bucketDrinksAt s now (Int.fdiv now 60000 - i)⟩ : Bucket))).Pairwise
        (fun a b => b.key < a.key) := by
    rw [List.pairwise_map]
    apply (List.pairwise_lt_range 60).imp
    intro i j hij
    simp only
    omega
  show sortBuckets _ = _
  rw [hagg, sortBuckets_of_desc _ hdesc, ← List.map_reverse,
    show (List.range 60).reverse = (List.range 60).map (fun j => 59 - j) from by decide,
    List.map_map]
  apply List.map_congr_left
  intro j hj
  have hj60 : j < 60 := List.mem_range.mp hj
  have hkey : Int.fdiv now 60000 - ((59 - j : ℕ) : ℤ)
      = Int.fdiv now 60000 - 59 + (j : ℤ) := by omega
  simp [Function.comp, hkey]

/-- C5: for every state and every now, the aggregator returns exactly 60
buckets, one per minute key of the trailing hour (materialized even when
empty), sorted strictly ascending by bucket start. -/
theorem c5_bucket_density (s : St) (now : Int) :
    (getAggregatedStats s now).buckets.length = 60 ∧
    (getAggregatedStats s now).buckets.map (fun b => b.key)
      = (List.range 60).map (fun j => Int.fdiv now 60000 - 59 + j) ∧
    ((getAggregatedStats s now).buckets.map (fun b => b.key * 60000)).Pairwise (· < ·) := by
  rw [getAggregatedStats_buckets_eq]
  refine ⟨by simp, by rw [List.map_map]; rfl, ?_⟩
  rw [List.map_map, List.pairwise_map]
  apply (List.pairwise_lt_range 60).imp
  intro i j hij
  simp only [Function.comp]
  omega

/-- C6 (amended): the bucket keys are pairwise distinct, and each bucket's
counter for a drink equals the number of consumptions of that drink that
both pass the window filter (timestamp at or after now - 60 minutes) and
have that bucket's key — so a consumption is counted once, in the bucket
keyed floor(timestamp/60000), exactly when it passes the window filter and
its key is among the 60 materialized keys, and is counted nowhere
otherwise. -/
theorem c6_bucket_assignment (s : St) (now : Int) :
    ((getAggregatedStats s now).buckets.map (fun b => b.key)).Nodup ∧
    ∀ b ∈ (getAggregatedStats s now).buckets, ∀ dn,
      drinkCount b.drinks dn
        = (s.consumptions.filter (fun c =>
            decide (c.drinkName = dn) &&
            decide (now - 60 * 60 * 1000 ≤ c.occurredAt) &&
            decide (bucketKeyOf c.occurredAt = b.key))).length := by
  constructor
  · rw [getAggregatedStats_buckets_eq, List.map_map]
    rw [List.Nodup, List.pairwise_map]
    apply (List.pairwise_lt_range 60).imp
    intro i j hij
    simp only [Function.comp]
    omega
  · intro b hb dn
    rw [getAggregatedStats_buckets_eq] at hb
    obtain ⟨j, _, rfl⟩ := List.mem_map.mp hb
    simp only
    unfold bucketDrinksAt
    rw [drinkCount_foldBump]
    unfold recentConsumptions
    rw [List.filter_filter, List.filter_filter]
    have hcount0 : drinkCount [] dn = 0 := rfl
    rw [hcount0, Nat.zero_add]
    congr 1
    apply List.filter_congr
    intro c _
    by_cases h1 : c.drinkName = dn <;>
      by_cases h2 : now - 60 * 60 * 1000 ≤ c.occurredAt <;>
        by_cases h3 : bucketKeyOf c.occurredAt
            = Int.fdiv now 60000 - 59 + (j : ℤ) <;>
      simp [h1, h2, h3]

/-- A state with one consumption at the exact start of the trailing hour
for now = 7200000. -/
def boundaryState : St := { initialState with consumptions := [⟨"Beer", none, 3600000⟩] }

/-- C6 counterexample: the consumption at timestamp 3600000 lies within the
trailing 60 minutes of now = 7200000 (the window filter keeps it), yet its
bucket key 60 is below every materialized key (61..120), so it is counted
in no bucket — every bucket's Beer counter is 0. -/
theorem c6_counterexample :
    (7200000 - 60 * 60 * 1000 ≤ (3600000 : ℤ)) ∧
    recentConsumptions boundaryState 7200000 = [⟨"Beer", none, 3600000⟩] ∧
    (getAggregatedStats boundaryState 7200000).buckets.all
      (fun b => drinkCount b.drinks "Beer" = 0) = true := by
  set_option maxRecDepth 100000 in decide

/-- Parsed snapshot JSON.  A field is some exactly when it is present and
truthy in the parsed object (the restore validation tests truthiness). -/
structure RawSnapshot where
  drinks : Option (List Drink)
  consumptions : Option (List Consumption)
  events : Option (List EventMarker)
  participants : Option (List Participant)
  predictions : Option (List Prediction)
  eventSettings : Option EventSettings
deriving DecidableEq, Repr

/-- A snapshot directory listing: file names paired with their parse
result, none when reading or JSON.parse would throw. -/
abbrev SnapshotDir := List (String × Option RawSnapshot)

/-- Model of String.prototype.startsWith over the character list. -/
def strStartsWith (s p : String) : Bool :=
  decide (s.data.take p.data.length = p.data)

/-- Model of String.prototype.endsWith over the character list. -/
def strEndsWith (s p : String) : Bool :=
  decide (s.data.reverse.take p.data.length = p.data.reverse)

/-- The snapshot file filter of saveSnapshot and restoreSnapshot. -/
def isSnapshotFile (name : String) : Bool :=
  strStartsWith name "snapshot-" && strEndsWith name ".json"

/-- Lexicographic comparison of character lists (code-point order, the
Array.prototype.sort default for these ASCII file names). -/
def charListLe : List Char → List Char → Bool
  | [], _ => true
  | _ :: _, [] => false
  | a :: as, b :: bs => if a = b then charListLe as bs else decide (a < b)

/-- String order used to sort snapshot file names. -/
def strLe (a b : String) : Bool := charListLe a.data b.data

/-- Ordered insertion for the file-name sort. -/
def insertSortedStr (x : String) : List String → List String
  | [] => [x]
  | y :: ys => if strLe x y then x :: y :: ys else y :: insertSortedStr x ys

/-- Ascending sort of file names (the algorithm is irrelevant to the
result: a comparison sort over a total order). -/
def sortStrings : List String → List String
  | [] => []
  | x :: xs => insertSortedStr x (sortStrings xs)

/-- snapshots[0] of restoreSnapshot: filter to snapshot files, sort,
reverse, take the first — the lexicographically greatest name. -/
def latestSnapshotName (files : SnapshotDir) : Option String :=
  (sortStrings ((files.filter (fun f => isSnapshotFile f.1)).map (fun f => f.1))).reverse.head?

/-- Reading and parsing a file of the directory. -/
def lookupContent (files : SnapshotDir) (name : String) : Option RawSnapshot :=
  (files.find? (fun f => f.1 = name)).bind (fun f => f.2)

/-- restoreSnapshot of server.js over the abstract directory: pick the
single lexicographically-latest snapshot file; a read/parse throw is caught
and reported as false with the state kept; a parsed object must carry
truthy drinks, consumptions and events, else false with the state kept;
on success the store is replaced wholesale, defaulting the fields absent
in older artifacts.  No other artifact is ever consulted. -/
def restoreSnapshot (files : SnapshotDir) (s : St) : Bool × St :=
  match latestSnapshotName files with
  | none => (false, s)
  | some latest =>
    match lookupContent files latest with
    | none => (false, s)
    | some raw =>
      match raw.drinks, raw.consumptions, raw.events with
      | some ds, some cs, some es =>
        (true,
          { drinks := ds, consumptions := cs, events := es,
            participants := raw.participants.getD [],
            predictions := raw.predictions.getD [],
            eventSettings := raw.eventSettings.getD ⟨none, false⟩ })
      | _, _, _ => (false, s)

/-- A structurally valid parsed snapshot. -/
def validRaw : RawSnapshot :=
  ⟨some [⟨"Beer", "", "", "#F59E0B"⟩], some [], some [], none, none, none⟩

/-- A directory whose newest snapshot artifact is unparseable while the
next-most-recent one is valid. -/
def badDir : SnapshotDir :=
  [("snapshot-0002.json", none), ("snapshot-0001.json", some validRaw)]

/-- C7 counterexample: the claim says restore falls back to the
next-most-recent artifact when the latest is malformed.  In badDir the
latest artifact snapshot-0002.json is unparseable and the older
snapshot-0001.json is valid, yet restore returns false and keeps the
current state: it never tries the older artifact. -/
theorem c7_counterexample :
    latestSnapshotName badDir = some "snapshot-0002.json" ∧
    lookupContent badDir "snapshot-0001.json" = some validRaw ∧
    (validRaw.drinks.isSome ∧ validRaw.consumptions.isSome ∧ validRaw.events.isSome) ∧
    restoreSnapshot badDir initialState = (false, initialState) := by decide

/-- C7 (amended): restore consults only the lexicographically greatest
snapshot artifact; whenever that artifact is unparseable or fails the
structural validation, restore returns false and leaves the state
unchanged (the process continues on its current state), regardless of any
older artifacts. -/
theorem c7_no_fallback (files : SnapshotDir) (s : St) (nm : String)
    (hl : latestSnapshotName files = some nm)
    (hbad : lookupContent files nm = none ∨
      ∃ raw, lookupContent files nm = some raw ∧
        (raw.drinks = none ∨ raw.consumptions = none ∨ raw.events = none)) :
    restoreSnapshot files s = (false, s) := by
  unfold restoreSnapshot
  rw [hl]
  rcases hbad with h | ⟨raw, hr, hbad⟩
  · simp only [h]
  · simp only [hr]
    cases hd : raw.drinks <;> cases hc : raw.consumptions <;> cases he : raw.events <;>
      simp_all

/-- C7 witness: the no-fallback theorem applied to the concrete directory
whose latest artifact is unparseable. -/
theorem c7_no_fallback_witness :
    restoreSnapshot badDir initialState = (false, initialState) :=
  c7_no_fallback badDir initialState "snapshot-0002.json" (by decide) (Or.inl (by decide))
